import Mathlib

/-!
Verification development for the `did:cheqd` DID resolver
(`src/resolution/parser.rs`, `src/resolution/resolver.rs`).

Strings of the Rust source are modelled as `List Char`; `HashMap<String,
String>` is modelled as an association list with unique keys
(`alistInsert` replaces the value of an existing key, matching
`HashMap::insert`, and `collect` over pairs folds `alistInsert`, so the
last occurrence wins, matching `HashMap`'s collect semantics).
-/

deriving instance DecidableEq for Except

/-- Rust `str::split_once(c)`: split at the first occurrence of `c`,
returning the parts before and after, or `none` when `c` is absent. -/
def splitOnce (c : Char) : List Char → Option (List Char × List Char)
  | [] => none
  | x :: xs =>
    if x = c then some ([], xs)
    else (splitOnce c xs).map (fun p => (x :: p.1, p.2))

/-- Rust `str::split(c)`: a list of the `c`-separated pieces; `n`
separators produce `n + 1` pieces (pieces may be empty). -/
def splitChar (c : Char) : List Char → List (List Char)
  | [] => [[]]
  | x :: xs =>
    if x = c then [] :: splitChar c xs
    else
      match splitChar c xs with
      | [] => [[x]]
      | h :: t => (x :: h) :: t

/-- Rust `str::starts_with(p)` for our char-list model. -/
def startsWithL : List Char → List Char → Bool
  | [], _ => true
  | _ :: _, [] => false
  | p :: ps, x :: xs => p = x && startsWithL ps xs

/-- `HashMap::get`: first (and, by the insert discipline, only) value
stored under the key. -/
def alistGet {β : Type} (k : List Char) : List (List Char × β) → Option β
  | [] => none
  | (k', v) :: t => if k' = k then some v else alistGet k t

/-- `HashMap::insert`: replace the value of an existing key, otherwise
append the new binding. -/
def alistInsert {β : Type} (k : List Char) (v : β) :
    List (List Char × β) → List (List Char × β)
  | [] => [(k, v)]
  | (k', v') :: t =>
    if k' = k then (k, v) :: t else (k', v') :: alistInsert k v t

/-- Query mapping: `HashMap<String, String>` of the source. -/
def QMap : Type := List (List Char × List Char)

instance : DecidableEq QMap := by
  unfold QMap
  infer_instance

/-- Error taxonomy of the crate (`crate::error::DidCheqdError`).
The enum's declaring file is not under `src/`; the constructors below are
exactly those constructed or matched by the source files under `src/`
(`parser.rs`, `resolver.rs`, `error/parsing.rs`).  Payloads that are
foreign error objects (transport / RPC errors) are modelled without
data. -/
inductive DidCheqdError where
  | MethodNotSupported (msg : List Char)
  | ParsingError
  | InvalidDidUrl (msg : List Char)
  | NetworkNotSupported (msg : List Char)
  | BadConfiguration (msg : List Char)
  | TransportError
  | NonSuccessResponse
  | InvalidResponse (msg : List Char)
  | ResourceNotFound (msg : List Char)
deriving DecidableEq

/-- Constructor tag of a `DidCheqdError` — the "error kind". -/
def DidCheqdError.kind : DidCheqdError → Nat
  | .MethodNotSupported _ => 0
  | .ParsingError => 1
  | .InvalidDidUrl _ => 2
  | .NetworkNotSupported _ => 3
  | .BadConfiguration _ => 4
  | .TransportError => 5
  | .NonSuccessResponse => 6
  | .InvalidResponse _ => 7
  | .ResourceNotFound _ => 8

/-- Parsed representation of a did:cheqd DID or DID URL
(`DidCheqdParsed` in `parser.rs`).  `namespace` is a Lean keyword, so
that field is named `nspace`. -/
structure DidCheqdParsed where
  did : List Char
  nspace : List Char
  id : List Char
  query : Option QMap
  version : Option (List Char)
deriving DecidableEq

/-- `DEFAULT_NAMESPACE` of `parser.rs`. -/
def DEFAULT_NAMESPACE : List Char := "mainnet".toList

/-- The method marker `"did:cheqd:"` checked by `parse`. -/
def didCheqdMarker : List Char := "did:cheqd:".toList

/-- `parse_query_string` of `parser.rs`: split on `&`, keep the pieces
containing `=`, collect into the map (last occurrence wins). -/
def parse_query_string (q : List Char) : QMap :=
  ((splitChar '&' q).filterMap (splitOnce '=')).foldl
    (fun m p => alistInsert p.1 p.2 m) []

/-- `DidCheqdParser::parse` of `parser.rs`, translated clause by clause:
method-marker check, query split at the first `?`, marker strip, path
split at the first `/` (keeping the slash), namespace split at the first
`:` (defaulting to `mainnet`), path-suffix handling
(`/resources/<id>` injects `resourceId` into the query, `/versions/<id>`
sets the version, other kinds and non-2-part suffixes are errors), query
`versionId` override, and canonical DID reconstruction.  The source's
`parts.len() != 2` guard followed by indexing `parts[0]` / `parts[1]`
is rendered as a match on the two-element list, its catch-all being the
length error. -/
def parse (input : List Char) : Except DidCheqdError DidCheqdParsed :=
  if startsWithL didCheqdMarker input then
    let bq : List Char × Option (List Char) :=
      match splitOnce '?' input with
      | some (b, q) => (b, some q)
      | none => (input, none)
    let base := bq.1
    let query_opt := bq.2
    let rest := base.drop didCheqdMarker.length
    let ip : List Char × Option (List Char) :=
      match splitOnce '/' rest with
      | some (p, _suf) => (p, some (rest.drop p.length))
      | none => (rest, none)
    let id_part := ip.1
    let path_opt := ip.2
    let nsid : List Char × List Char :=
      match splitOnce ':' id_part with
      | some (ns, i) => (ns, i)
      | none => (DEFAULT_NAMESPACE, id_part)
    let ns := nsid.1
    let theId := nsid.2
    let query0 := query_opt.map parse_query_string
    let step : Except DidCheqdError (Option QMap × Option (List Char)) :=
      match path_opt with
      | none => .ok (query0, none)
      | some p =>
        match splitChar '/' (p.dropWhile (fun c => c = '/')) with
        | [kind, value] =>
          if kind = "resources".toList then
            match query0 with
            | some m => .ok (some (alistInsert "resourceId".toList value m), none)
            | none => .ok (some (alistInsert "resourceId".toList value []), none)
          else if kind = "versions".toList then
            .ok (query0, some value)
          else
            .error (.InvalidDidUrl
              "unsupported path segment; only `resources` and `versions` are accepted".toList)
        | _ =>
          .error (.InvalidDidUrl
            "unsupported path format; expected /resources/<id> or /versions/<id>".toList)
    match step with
    | .error e => .error e
    | .ok (query1, version0) =>
      let version1 :=
        match query1 with
        | some qmap =>
          match alistGet "versionId".toList qmap with
          | some v => some v
          | none => version0
        | none => version0
      .ok
        { did := didCheqdMarker ++ ns ++ ':' :: theId
          nspace := ns
          id := theId
          query := query1
          version := version1 }
  else
    .error (.MethodNotSupported ("not a did:cheqd string: ".toList ++ input))

/-- `prost_types::Timestamp` as carried by resource metadata:
whole seconds and a nanosecond part. -/
structure PTimestamp where
  seconds : Int
  nanos : Int
deriving DecidableEq

/-- `prost_types::Timestamp::normalized` (external collaborator of
`resolver.rs`): carry whole seconds out of the nanosecond field so that
`0 ≤ nanos < 10^9`; on `Int`, `/` and `%` are floor division and
nonnegative remainder, which is exactly that adjustment. -/
def PTimestamp.normalized (t : PTimestamp) : PTimestamp :=
  { seconds := t.seconds + t.nanos / 1000000000
    nanos := t.nanos % 1000000000 }

/-- `chrono::DateTime<Utc>`: whole seconds since the epoch plus a
sub-second part `0 ≤ nanos < 10^9`. -/
structure UtcDateTime where
  secs : Int
  nanos : Int
deriving DecidableEq

/-- `DateTime::timestamp()`: the whole-second epoch (for the
representation above, the `secs` field). -/
def UtcDateTime.timestamp (t : UtcDateTime) : Int := t.secs

/-- `cheqd.resource.v2.Metadata` (`CheqdResourceMetadata` in
`resolver.rs`).  The proto-generated declaration is not under `src/`;
the fields below are those read by `resolver.rs` (`id`, `name`,
`resource_type`, `created`, `media_type`), with string fields as char
lists and payload-free fields omitted. -/
structure CheqdResourceMetadata where
  id : List Char
  name : List Char
  resource_type : List Char
  media_type : List Char
  created : Option PTimestamp
deriving DecidableEq

/-- `filter_resources_by_name_and_type` of `resolver.rs`: keep entries
whose `name` and `resource_type` equal the requested ones. -/
def filter_resources_by_name_and_type
    (resources : List CheqdResourceMetadata) (name rtyp : List Char) :
    List CheqdResourceMetadata :=
  resources.filter (fun r =>
    decide (r.name = name) && decide (r.resource_type = rtyp))

/-- Rust `Ord::cmp` on `i64`. -/
def intCmp (a b : Int) : Ordering :=
  if a < b then .lt else if a = b then .eq else .gt

/-- Sort key used by the comparator: normalized `(seconds, nanos)` of the
`created` timestamp, `(0, 0)` when absent. -/
def createdKey (r : CheqdResourceMetadata) : Int × Int :=
  match r.created with
  | some v => ((v.normalized).seconds, (v.normalized).nanos)
  | none => (0, 0)

/-- `desc_chronological_sort_resources` of `resolver.rs`.  The parameter
names are swapped (`b` first) exactly as in the source, which is what
makes the comparator order descending when handed to a sort. -/
def desc_chronological_sort_resources
    (b a : CheqdResourceMetadata) : Ordering :=
  match intCmp (createdKey a).1 (createdKey b).1 with
  | .eq => intCmp (createdKey a).2 (createdKey b).2
  | res => res

/-- The "not Greater" ordering induced by the comparator: `x` may stay
before `y` in the sorted output. -/
def descLe (a b : CheqdResourceMetadata) : Prop :=
  desc_chronological_sort_resources a b ≠ Ordering.gt

instance : DecidableRel descLe := fun a b => by
  unfold descLe
  infer_instance

/-- `filtered.sort_by(|a, b| desc_chronological_sort_resources(a, b))`
of `resolver.rs`: Rust's `sort_by` is a stable sort ordering `x` before
`y` whenever the comparator does not say `Greater`; any stable sort
computes the same list, so it is modelled by the stable insertion
sort. -/
def sort_by_desc_chronological
    (l : List CheqdResourceMetadata) : List CheqdResourceMetadata :=
  l.insertionSort descLe

/-- `find_resource_just_before_time` of `resolver.rs`: scan the list,
skip entries with no `created` timestamp, and return the first entry
whose normalized whole-second epoch is strictly below
`before_time.timestamp()`. -/
def find_resource_just_before_time
    (resources : List CheqdResourceMetadata) (before_time : UtcDateTime) :
    Option CheqdResourceMetadata :=
  let before_epoch := before_time.timestamp
  go before_epoch resources
where
  go (before_epoch : Int) : List CheqdResourceMetadata →
      Option CheqdResourceMetadata
    | [] => none
    | r :: rest =>
      match r.created with
      | none => go before_epoch rest
      | some created =>
        if (created.normalized).seconds < before_epoch then some r
        else go before_epoch rest

/-- The pure selection pipeline of
`resolve_resource_by_name_type_and_time` in `resolver.rs` (between the
two RPCs): filter by name and type, sort descending, scan for the
first entry strictly before the requested time. -/
def resolve_resource_selection
    (resources : List CheqdResourceMetadata) (name rtyp : List Char)
    (time : UtcDateTime) : Option CheqdResourceMetadata :=
  find_resource_just_before_time
    (sort_by_desc_chronological
      (filter_resources_by_name_and_type resources name rtyp))
    time

/-- The resource selector that `query_resource_by_str` dispatches on:
an exact id, or a `(name, type, as-of)` triple. -/
inductive ResourceSelector where
  | byId (resource_id : List Char)
  | byNameTypeTime (resource_name resource_type : List Char) (time : UtcDateTime)
deriving DecidableEq

/-- The selector-decoding phase of `DidCheqdResolver::query_resource_by_str`
in `resolver.rs` (everything before the RPCs, which the returned
selector then drives): `resourceId` in the parsed query wins and yields
an exact-id lookup; otherwise both `resourceName` and `resourceType`
are required, with `resourceVersionTime` parsed as an RFC 3339
timestamp (an external `chrono` parser, passed in as `parseRfc3339`,
whose error carries the message string) and defaulting to `now`
(`Utc::now()`).  Error messages are those of the source. -/
def query_resource_by_str_selector (did_url : List Char)
    (parsed_did : DidCheqdParsed)
    (parseRfc3339 : List Char → Except (List Char) UtcDateTime)
    (now : UtcDateTime) : Except DidCheqdError ResourceSelector :=
  match parsed_did.query with
  | none =>
    .error (.InvalidDidUrl ("No resource path or query present: ".toList ++ did_url))
  | some qmap =>
    match alistGet "resourceId".toList qmap with
    | some resource_id => .ok (.byId resource_id)
    | none =>
      match alistGet "resourceName".toList qmap,
          alistGet "resourceType".toList qmap with
      | some resource_name, some resource_type =>
        (match alistGet "resourceVersionTime".toList qmap with
        | some v =>
          match parseRfc3339 v with
          | .error e => .error (.InvalidDidUrl e)
          | .ok t => .ok (.byNameTypeTime resource_name resource_type t)
        | none => .ok (.byNameTypeTime resource_name resource_type now))
      | _, _ =>
        .error (.InvalidDidUrl
          ("Resolver can only resolve by exact resource ID or name+type combination ".toList
            ++ did_url))

/-- `NetworkConfiguration` of `resolver.rs`. -/
structure NetworkConfiguration where
  grpc_url : List Char
  nspace : List Char
deriving DecidableEq

/-- `MAINNET_NAMESPACE` of `resolver.rs`. -/
def MAINNET_NAMESPACE : List Char := "mainnet".toList

/-- `MAINNET_DEFAULT_GRPC` of `resolver.rs`. -/
def MAINNET_DEFAULT_GRPC : List Char := "https://grpc.cheqd.net:443".toList

/-- `TESTNET_NAMESPACE` of `resolver.rs`. -/
def TESTNET_NAMESPACE : List Char := "testnet".toList

/-- `TESTNET_DEFAULT_GRPC` of `resolver.rs`. -/
def TESTNET_DEFAULT_GRPC : List Char := "https://grpc.cheqd.network:443".toList

/-- `NetworkConfiguration::mainnet`. -/
def NetworkConfiguration.mainnet : NetworkConfiguration :=
  { grpc_url := MAINNET_DEFAULT_GRPC, nspace := MAINNET_NAMESPACE }

/-- `NetworkConfiguration::testnet`. -/
def NetworkConfiguration.testnet : NetworkConfiguration :=
  { grpc_url := TESTNET_DEFAULT_GRPC, nspace := TESTNET_NAMESPACE }

/-- `DidCheqdResolverConfiguration` of `resolver.rs`. -/
structure DidCheqdResolverConfiguration where
  networks : List NetworkConfiguration
deriving DecidableEq

/-- `DidCheqdResolverConfiguration::default`: mainnet and testnet. -/
def DidCheqdResolverConfiguration.default : DidCheqdResolverConfiguration :=
  { networks := [NetworkConfiguration.mainnet, NetworkConfiguration.testnet] }

/-- `CheqdGrpcClient` of `resolver.rs`: a pair of query clients wrapping
a gRPC channel; the channel type is abstract (`Chan`). -/
structure CheqdGrpcClient (Chan : Type) where
  did : Chan
  resources : Chan
deriving DecidableEq

/-- `DidCheqdResolver` state of `resolver.rs`: the immutable network
list and the mutex-guarded connection cache (here the cache value,
threaded explicitly). -/
structure DidCheqdResolver (Chan : Type) where
  networks : List NetworkConfiguration
  network_clients : List (List Char × CheqdGrpcClient Chan)
deriving DecidableEq

/-- `DidCheqdResolver::new`: keep the configured networks, start with an
empty connection cache (`Default::default()`). -/
def DidCheqdResolver.new (Chan : Type)
    (configuration : DidCheqdResolverConfiguration) : DidCheqdResolver Chan :=
  { networks := configuration.networks, network_clients := [] }

/-- Observable side-effect events of `client_for_network`: endpoint
construction (`Endpoint::new` + TLS setup) and connection establishment
(`Endpoint::connect`). -/
inductive ConnAction where
  | endpointNew (url : List Char)
  | connect (url : List Char)
deriving DecidableEq

/-- `DidCheqdResolver::client_for_network` of `resolver.rs`.  Under the
cache lock: return the cached client if present; otherwise look the
namespace up in `networks` (`NetworkNotSupported` if absent), construct
the endpoint (`BadConfiguration` when the URL does not parse,
`TransportError` when TLS configuration fails), connect
(`TransportError` on failure), build the client from the channel,
insert it into the cache and return it.  External effects are
parameters: `endpointOk` (does `Endpoint::new` succeed), `tlsOk` (does
`tls_config` succeed), `connectChan` (outcome of `connect`).  Returns
the updated cache, the result, and the trace of attempted effects. -/
def client_for_network {Chan : Type}
    (resolver : DidCheqdResolver Chan)
    (endpointOk : List Char → Bool)
    (tlsOk : List Char → Bool)
    (connectChan : List Char → Except Unit Chan)
    (network : List Char) :
    List (List Char × CheqdGrpcClient Chan)
      × Except DidCheqdError (CheqdGrpcClient Chan) × List ConnAction :=
  let lock := resolver.network_clients
  match alistGet network lock with
  | some client => (lock, .ok client, [])
  | none =>
    match resolver.networks.find? (fun n => decide (n.nspace = network)) with
    | none => (lock, .error (.NetworkNotSupported network), [])
    | some network_config =>
      if endpointOk network_config.grpc_url then
        if tlsOk network_config.grpc_url then
          match connectChan network_config.grpc_url with
          | .ok channel =>
            let client : CheqdGrpcClient Chan :=
              { did := channel, resources := channel }
            (alistInsert network client lock, .ok client,
              [.endpointNew network_config.grpc_url,
                .connect network_config.grpc_url])
          | .error _ =>
            (lock, .error .TransportError,
              [.endpointNew network_config.grpc_url,
                .connect network_config.grpc_url])
        else
          (lock, .error .TransportError,
            [.endpointNew network_config.grpc_url])
      else
        (lock, .error (.BadConfiguration "Failed to parse GRPC url".toList),
          [.endpointNew network_config.grpc_url])

/-- The selection and error-reporting core of
`resolve_resource_by_name_type_and_time` in `resolver.rs`: filter, sort,
scan; when no entry qualifies, fail with `ResourceNotFound` naming
network, collection, name, type and time (the time's display rendering
is external `chrono` formatting, passed in as `showTime`); otherwise
return the selected metadata entry (whose id the second RPC then
fetches). -/
def resolve_resource_by_name_type_and_time
    (resources : List CheqdResourceMetadata) (did_id name rtyp : List Char)
    (time : UtcDateTime) (network : List Char)
    (showTime : UtcDateTime → List Char) :
    Except DidCheqdError CheqdResourceMetadata :=
  match resolve_resource_selection resources name rtyp time with
  | none =>
    .error (.ResourceNotFound ("network: ".toList ++ network ++
      ", collection: ".toList ++ did_id ++ ", name: ".toList ++ name ++
      ", type: ".toList ++ rtyp ++ ", time: ".toList ++ showTime time))
  | some meta => .ok meta

/-- The version-selection rule as the spec words it: the first entry (in
the given order) whose full-precision creation timestamp — seconds and
nanoseconds — is strictly earlier than the as-of instant.  Used only to
compare the spec's description against the code's scan. -/
def specFirstStrictlyBefore
    (resources : List CheqdResourceMetadata) (t : UtcDateTime) :
    Option CheqdResourceMetadata :=
  resources.find? (fun r =>
    match r.created with
    | some c =>
      decide ((c.normalized).seconds < t.secs ∨
        ((c.normalized).seconds = t.secs ∧ (c.normalized).nanos < t.nanos))
    | none => false)

/-- Proof helper: the value `parse` computes once its method-marker
check, query split and path split are done — `id_part` is the segment
between the marker and the first `/`, `path_opt` the path suffix
(with its leading slash), `query_opt` the raw query string.  The body
is the corresponding tail of `parse`, verbatim. -/
def parseComponents (id_part : List Char) (path_opt : Option (List Char))
    (query_opt : Option (List Char)) : Except DidCheqdError DidCheqdParsed :=
  let nsid : List Char × List Char :=
    match splitOnce ':' id_part with
    | some (ns, i) => (ns, i)
    | none => (DEFAULT_NAMESPACE, id_part)
  let ns := nsid.1
  let theId := nsid.2
  let query0 := query_opt.map parse_query_string
  let step : Except DidCheqdError (Option QMap × Option (List Char)) :=
    match path_opt with
    | none => .ok (query0, none)
    | some p =>
      match splitChar '/' (p.dropWhile (fun c => c = '/')) with
      | [kind, value] =>
        if kind = "resources".toList then
          match query0 with
          | some m => .ok (some (alistInsert "resourceId".toList value m), none)
          | none => .ok (some (alistInsert "resourceId".toList value []), none)
        else if kind = "versions".toList then
          .ok (query0, some value)
        else
          .error (.InvalidDidUrl
            "unsupported path segment; only `resources` and `versions` are accepted".toList)
      | _ =>
        .error (.InvalidDidUrl
          "unsupported path format; expected /resources/<id> or /versions/<id>".toList)
  match step with
  | .error e => .error e
  | .ok (query1, version0) =>
    let version1 :=
      match query1 with
      | some qmap =>
        match alistGet "versionId".toList qmap with
        | some v => some v
        | none => version0
      | none => version0
    .ok
      { did := didCheqdMarker ++ ns ++ ':' :: theId
        nspace := ns
        id := theId
        query := query1
        version := version1 }

example :
    parse "did:cheqd:mainnet:abcd123".toList =
      .ok { did := "did:cheqd:mainnet:abcd123".toList,
            nspace := "mainnet".toList, id := "abcd123".toList,
            query := none, version := none } := by decide

example :
    parse "did:cheqd:abcd123".toList =
      .ok { did := "did:cheqd:mainnet:abcd123".toList,
            nspace := "mainnet".toList, id := "abcd123".toList,
            query := none, version := none } := by decide

example :
    parse "did:cheqd:mainnet:abcd123/resources/r1".toList =
      .ok { did := "did:cheqd:mainnet:abcd123".toList,
            nspace := "mainnet".toList, id := "abcd123".toList,
            query := some [("resourceId".toList, "r1".toList)],
            version := none } := by decide

example :
    parse "did:cheqd:mainnet:abcd123/versions/v1".toList =
      .ok { did := "did:cheqd:mainnet:abcd123".toList,
            nspace := "mainnet".toList, id := "abcd123".toList,
            query := none, version := some "v1".toList } := by decide

example :
    (parse "did:cheqd:mainnet:abcd123?resourceName=foo&versionId=v42".toList).map
      (fun p => p.version) = .ok (some "v42".toList) := by decide

example :
    parse "did:xyz:abc".toList =
      .error (.MethodNotSupported "not a did:cheqd string: did:xyz:abc".toList) := by
  decide


theorem startsWithL_append (p l : List Char) :
    startsWithL p (p ++ l) = true := by
  induction p with
  | nil => rfl
  | cons x xs ih => simp [startsWithL, ih]

theorem splitOnce_cons_self (c : Char) (b : List Char) :
    splitOnce c (c :: b) = some ([], b) := by
  simp [splitOnce]

theorem splitOnce_cons_ne {c x : Char} (h : x ≠ c) (xs : List Char) :
    splitOnce c (x :: xs) =
      (splitOnce c xs).map (fun p => (x :: p.1, p.2)) := by
  simp [splitOnce, h]

theorem splitOnce_of_not_mem {c : Char} :
    ∀ {l : List Char}, c ∉ l → splitOnce c l = none := by
  intro l
  induction l with
  | nil => intro _; rfl
  | cons x xs ih =>
    intro h
    rw [List.mem_cons, not_or] at h
    rw [splitOnce_cons_ne (fun hx => h.1 hx.symm), ih h.2]
    rfl

theorem splitOnce_append_left {c : Char} :
    ∀ {a : List Char}, c ∉ a → ∀ (b : List Char),
      splitOnce c (a ++ b) =
        (splitOnce c b).map (fun p => (a ++ p.1, p.2)) := by
  intro a
  induction a with
  | nil =>
    intro _ b
    cases hb : splitOnce c b with
    | none => simp [hb]
    | some p => simp [hb]
  | cons x xs ih =>
    intro h b
    rw [List.mem_cons, not_or] at h
    rw [List.cons_append, splitOnce_cons_ne (fun hx => h.1 hx.symm),
      ih h.2 b]
    cases splitOnce c b with
    | none => rfl
    | some p => rfl

theorem splitChar_ne_nil (c : Char) : ∀ (l : List Char), splitChar c l ≠ [] := by
  intro l
  induction l with
  | nil => simp [splitChar]
  | cons x xs ih =>
    by_cases hx : x = c
    · simp [splitChar, hx]
    · simp only [splitChar, if_neg hx]
      cases h : splitChar c xs with
      | nil => simp
      | cons hd tl => simp

theorem splitChar_cons_self (c : Char) (b : List Char) :
    splitChar c (c :: b) = [] :: splitChar c b := by
  simp [splitChar]

theorem splitChar_cons_ne {c x : Char} (h : x ≠ c) (xs : List Char) :
    ∀ {hd : List Char} {tl : List (List Char)}, splitChar c xs = hd :: tl →
      splitChar c (x :: xs) = (x :: hd) :: tl := by
  intro hd tl hsp
  simp only [splitChar, if_neg h, hsp]

theorem splitChar_of_not_mem {c : Char} :
    ∀ {l : List Char}, c ∉ l → splitChar c l = [l] := by
  intro l
  induction l with
  | nil => intro _; rfl
  | cons x xs ih =>
    intro h
    rw [List.mem_cons, not_or] at h
    exact splitChar_cons_ne (fun hx => h.1 hx.symm) xs (ih h.2)

theorem splitChar_append_left {c : Char} :
    ∀ {a : List Char}, c ∉ a → ∀ {b hd : List Char} {tl : List (List Char)},
      splitChar c b = hd :: tl → splitChar c (a ++ b) = (a ++ hd) :: tl := by
  intro a
  induction a with
  | nil => intro _ b hd tl h; simpa using h
  | cons x xs ih =>
    intro h b hd tl hb
    rw [List.mem_cons, not_or] at h
    rw [List.cons_append]
    exact splitChar_cons_ne (fun hx => h.1 hx.symm) _ (ih h.2 hb)

theorem parse_decomp_path_query (idp p' qs : List Char)
    (h1 : '?' ∉ idp) (h2 : '/' ∉ idp) (h3 : '?' ∉ p') :
    parse (didCheqdMarker ++ (idp ++ ('/' :: (p' ++ ('?' :: qs))))) =
      parseComponents idp (some ('/' :: p')) (some qs) := by
  have hm : '?' ∉ didCheqdMarker := by decide
  have hstart : startsWithL didCheqdMarker
      (didCheqdMarker ++ (idp ++ ('/' :: (p' ++ ('?' :: qs))))) = true :=
    startsWithL_append _ _
  have hq : splitOnce '?' (didCheqdMarker ++ (idp ++ ('/' :: (p' ++ ('?' :: qs))))) =
      some (didCheqdMarker ++ (idp ++ ('/' :: p')), qs) := by
    rw [splitOnce_append_left hm, splitOnce_append_left h1,
      splitOnce_cons_ne (by decide), splitOnce_append_left h3,
      splitOnce_cons_self]
    simp
  have hdrop : (didCheqdMarker ++ (idp ++ ('/' :: p'))).drop didCheqdMarker.length =
      idp ++ ('/' :: p') := List.drop_left _ _
  have hs : splitOnce '/' (idp ++ ('/' :: p')) = some (idp, p') := by
    rw [splitOnce_append_left h2, splitOnce_cons_self]
    simp
  have hdrop2 : (idp ++ ('/' :: p')).drop idp.length = '/' :: p' :=
    List.drop_left _ _
  unfold parse parseComponents
  rw [hstart]
  simp only [if_true, hq, hdrop, hs, hdrop2]

theorem parse_decomp_path (idp p' : List Char)
    (h1 : '?' ∉ idp) (h2 : '/' ∉ idp) (h3 : '?' ∉ p') :
    parse (didCheqdMarker ++ (idp ++ ('/' :: p'))) =
      parseComponents idp (some ('/' :: p')) none := by
  have hm : '?' ∉ didCheqdMarker := by decide
  have hstart : startsWithL didCheqdMarker
      (didCheqdMarker ++ (idp ++ ('/' :: p'))) = true :=
    startsWithL_append _ _
  have hq : splitOnce '?' (didCheqdMarker ++ (idp ++ ('/' :: p'))) = none := by
    rw [splitOnce_append_left hm, splitOnce_append_left h1,
      splitOnce_cons_ne (by decide), splitOnce_of_not_mem h3]
    rfl
  have hdrop : (didCheqdMarker ++ (idp ++ ('/' :: p'))).drop didCheqdMarker.length =
      idp ++ ('/' :: p') := List.drop_left _ _
  have hs : splitOnce '/' (idp ++ ('/' :: p')) = some (idp, p') := by
    rw [splitOnce_append_left h2, splitOnce_cons_self]
    simp
  have hdrop2 : (idp ++ ('/' :: p')).drop idp.length = '/' :: p' :=
    List.drop_left _ _
  unfold parse parseComponents
  rw [hstart]
  simp only [if_true, hq, hdrop, hs, hdrop2]

theorem parse_decomp_query (idp qs : List Char)
    (h1 : '?' ∉ idp) (h2 : '/' ∉ idp) :
    parse (didCheqdMarker ++ (idp ++ ('?' :: qs))) =
      parseComponents idp none (some qs) := by
  have hm : '?' ∉ didCheqdMarker := by decide
  have hstart : startsWithL didCheqdMarker
      (didCheqdMarker ++ (idp ++ ('?' :: qs))) = true :=
    startsWithL_append _ _
  have hq : splitOnce '?' (didCheqdMarker ++ (idp ++ ('?' :: qs))) =
      some (didCheqdMarker ++ idp, qs) := by
    rw [splitOnce_append_left hm, splitOnce_append_left h1,
      splitOnce_cons_self]
    simp
  have hdrop : (didCheqdMarker ++ idp).drop didCheqdMarker.length = idp :=
    List.drop_left _ _
  have hs : splitOnce '/' idp = none := splitOnce_of_not_mem h2
  unfold parse parseComponents
  rw [hstart]
  simp only [if_true, hq, hdrop, hs]

theorem parse_decomp_plain (idp : List Char)
    (h1 : '?' ∉ idp) (h2 : '/' ∉ idp) :
    parse (didCheqdMarker ++ idp) = parseComponents idp none none := by
  have hm : '?' ∉ didCheqdMarker := by decide
  have hstart : startsWithL didCheqdMarker (didCheqdMarker ++ idp) = true :=
    startsWithL_append _ _
  have hq : splitOnce '?' (didCheqdMarker ++ idp) = none := by
    rw [splitOnce_append_left hm, splitOnce_of_not_mem h1]
    rfl
  have hdrop : (didCheqdMarker ++ idp).drop didCheqdMarker.length = idp :=
    List.drop_left _ _
  have hs : splitOnce '/' idp = none := splitOnce_of_not_mem h2
  unfold parse parseComponents
  rw [hstart]
  simp only [if_true, hq, hdrop, hs]

theorem pathParts_versions (v1 : List Char) (h : '/' ∉ v1) :
    splitChar '/' (('/' :: ("versions/".toList ++ v1)).dropWhile (fun c => c = '/')) =
      ["versions".toList, v1] := by
  have e1 : "versions/".toList ++ v1 = "versions".toList ++ ('/' :: v1) := by
    have : "versions/".toList = "versions".toList ++ ['/'] := by decide
    rw [this, List.append_assoc]
    rfl
  rw [e1]
  have e2 : ('/' :: ("versions".toList ++ ('/' :: v1))).dropWhile
      (fun c => decide (c = '/')) = "versions".toList ++ ('/' :: v1) := by
    rw [List.dropWhile_cons]
    simp [List.dropWhile_cons]
  rw [e2]
  have e3 : splitChar '/' ('/' :: v1) = [] :: [v1] := by
    rw [splitChar_cons_self, splitChar_of_not_mem h]
  have := splitChar_append_left (a := "versions".toList) (by decide) e3
  rw [this]
  simp

theorem pathParts_resources (v1 : List Char) (h : '/' ∉ v1) :
    splitChar '/' (('/' :: ("resources/".toList ++ v1)).dropWhile (fun c => c = '/')) =
      ["resources".toList, v1] := by
  have e1 : "resources/".toList ++ v1 = "resources".toList ++ ('/' :: v1) := by
    have : "resources/".toList = "resources".toList ++ ['/'] := by decide
    rw [this, List.append_assoc]
    rfl
  rw [e1]
  have e2 : ('/' :: ("resources".toList ++ ('/' :: v1))).dropWhile
      (fun c => decide (c = '/')) = "resources".toList ++ ('/' :: v1) := by
    rw [List.dropWhile_cons]
    simp [List.dropWhile_cons]
  rw [e2]
  have e3 : splitChar '/' ('/' :: v1) = [] :: [v1] := by
    rw [splitChar_cons_self, splitChar_of_not_mem h]
  have := splitChar_append_left (a := "resources".toList) (by decide) e3
  rw [this]
  simp

theorem alistGet_insert_self {β : Type} (k : List Char) (v : β) :
    ∀ m : List (List Char × β), alistGet k (alistInsert k v m) = some v := by
  intro m
  induction m with
  | nil => simp [alistInsert, alistGet]
  | cons p t ih =>
    by_cases h : p.1 = k
    · simp [alistInsert, alistGet, h]
    · simpa [alistInsert, alistGet, h] using ih

theorem alistGet_insert_ne {β : Type} {k k' : List Char} (v : β)
    (h : k' ≠ k) : ∀ m : List (List Char × β),
      alistGet k (alistInsert k' v m) = alistGet k m := by
  intro m
  induction m with
  | nil => simp [alistInsert, alistGet, h]
  | cons p t ih =>
    obtain ⟨pk, pv⟩ := p
    simp only [alistInsert]
    by_cases hp : pk = k'
    · rw [if_pos hp]
      show alistGet k ((k', v) :: t) = alistGet k ((pk, pv) :: t)
      simp only [alistGet, if_neg h,
        if_neg (fun hh => h (hp.symm.trans hh))]
    · rw [if_neg hp]
      simp only [alistGet]
      by_cases hk : pk = k
      · rw [if_pos hk, if_pos hk]
      · rw [if_neg hk, if_neg hk, ih]


/-- C9: for every valid input of the form `did:cheqd:ns:id`, `parse`
yields namespace `ns` and identifier `id`; when the `ns:` part is
omitted the namespace defaults to `mainnet`; and the canonical `did`
field is reconstructed as `did:cheqd:<namespace>:<id>` with any query
or path suffix stripped. -/
theorem C9_parse_namespace_id_and_canonical_did :
    (∀ ns id1 : List Char, ':' ∉ ns → '?' ∉ ns → '/' ∉ ns →
      '?' ∉ id1 → '/' ∉ id1 →
      parse (didCheqdMarker ++ (ns ++ (':' :: id1))) =
        .ok { did := didCheqdMarker ++ ns ++ ':' :: id1, nspace := ns,
              id := id1, query := none, version := none }) ∧
    (∀ idp : List Char, ':' ∉ idp → '?' ∉ idp → '/' ∉ idp →
      parse (didCheqdMarker ++ idp) =
        .ok { did := didCheqdMarker ++ DEFAULT_NAMESPACE ++ ':' :: idp,
              nspace := DEFAULT_NAMESPACE, id := idp, query := none,
              version := none }) ∧
    (∀ ns id1 qs : List Char, ':' ∉ ns → '?' ∉ ns → '/' ∉ ns →
      '?' ∉ id1 → '/' ∉ id1 →
      (parse (didCheqdMarker ++ (ns ++ (':' :: (id1 ++ ('?' :: qs)))))).map
          (fun r => r.did) =
        .ok (didCheqdMarker ++ ns ++ ':' :: id1)) ∧
    (∀ ns id1 v1 : List Char, ':' ∉ ns → '?' ∉ ns → '/' ∉ ns →
      '?' ∉ id1 → '/' ∉ id1 → '?' ∉ v1 → '/' ∉ v1 →
      (parse (didCheqdMarker ++
          (ns ++ (':' :: (id1 ++ ('/' :: ("versions/".toList ++ v1))))))).map
          (fun r => r.did) =
        .ok (didCheqdMarker ++ ns ++ ':' :: id1)) := by
  refine ⟨?_, ?_, ?_, ?_⟩
  · intro ns id1 hc hq hs hq2 hs2
    have h1 : '?' ∉ ns ++ (':' :: id1) := by
      simp [List.mem_append, List.mem_cons, hq, hq2]
    have h2 : '/' ∉ ns ++ (':' :: id1) := by
      simp [List.mem_append, List.mem_cons, hs, hs2]
    rw [parse_decomp_plain _ h1 h2]
    unfold parseComponents
    rw [splitOnce_append_left hc, splitOnce_cons_self]
    simp
  · intro idp hc hq hs
    rw [parse_decomp_plain _ hq hs]
    unfold parseComponents
    rw [splitOnce_of_not_mem hc]
    simp
  · intro ns id1 qs hc hq hs hq2 hs2
    have h1 : '?' ∉ ns ++ (':' :: id1) := by
      simp [List.mem_append, List.mem_cons, hq, hq2]
    have h2 : '/' ∉ ns ++ (':' :: id1) := by
      simp [List.mem_append, List.mem_cons, hs, hs2]
    have hshape : didCheqdMarker ++ (ns ++ (':' :: (id1 ++ ('?' :: qs)))) =
        didCheqdMarker ++ ((ns ++ (':' :: id1)) ++ ('?' :: qs)) := by simp
    rw [hshape, parse_decomp_query _ _ h1 h2]
    simp only [parseComponents]
    rw [splitOnce_append_left hc, splitOnce_cons_self]
    simp [Except.map]
  · intro ns id1 v1 hc hq hs hq2 hs2 hqv hsv
    have h1 : '?' ∉ ns ++ (':' :: id1) := by
      simp [List.mem_append, List.mem_cons, hq, hq2]
    have h2 : '/' ∉ ns ++ (':' :: id1) := by
      simp [List.mem_append, List.mem_cons, hs, hs2]
    have h3 : '?' ∉ "versions/".toList ++ v1 := by
      simp [List.mem_append, hqv]
    have hshape : didCheqdMarker ++
        (ns ++ (':' :: (id1 ++ ('/' :: ("versions/".toList ++ v1))))) =
        didCheqdMarker ++
        ((ns ++ (':' :: id1)) ++ ('/' :: ("versions/".toList ++ v1))) := by simp
    rw [hshape, parse_decomp_path _ _ h1 h2 h3]
    simp only [parseComponents]
    rw [splitOnce_append_left hc, splitOnce_cons_self, pathParts_versions v1 hsv]
    simp +decide [Except.map]

/-- Witness for C9: concrete namespaced and namespace-less inputs, a
query-suffixed input and a versions-suffixed input, all through the C9
theorem. -/
theorem C9_parse_namespace_id_and_canonical_did_witness :
    parse (didCheqdMarker ++ ("testnet".toList ++ (':' :: "abc".toList))) =
      .ok { did := didCheqdMarker ++ "testnet".toList ++ ':' :: "abc".toList,
            nspace := "testnet".toList, id := "abc".toList, query := none,
            version := none } ∧
    parse (didCheqdMarker ++ "abc".toList) =
      .ok { did := didCheqdMarker ++ DEFAULT_NAMESPACE ++ ':' :: "abc".toList,
            nspace := DEFAULT_NAMESPACE, id := "abc".toList, query := none,
            version := none } ∧
    (parse (didCheqdMarker ++
        ("testnet".toList ++ (':' :: ("abc".toList ++ ('?' :: "a=b".toList)))))).map
        (fun r => r.did) =
      .ok (didCheqdMarker ++ "testnet".toList ++ ':' :: "abc".toList) ∧
    (parse (didCheqdMarker ++
        ("testnet".toList ++
          (':' :: ("abc".toList ++ ('/' :: ("versions/".toList ++ "v1".toList))))))).map
        (fun r => r.did) =
      .ok (didCheqdMarker ++ "testnet".toList ++ ':' :: "abc".toList) :=
  ⟨C9_parse_namespace_id_and_canonical_did.1 "testnet".toList "abc".toList
      (by decide) (by decide) (by decide) (by decide) (by decide),
    C9_parse_namespace_id_and_canonical_did.2.1 "abc".toList
      (by decide) (by decide) (by decide),
    C9_parse_namespace_id_and_canonical_did.2.2.1 "testnet".toList "abc".toList
      "a=b".toList (by decide) (by decide) (by decide) (by decide) (by decide),
    C9_parse_namespace_id_and_canonical_did.2.2.2 "testnet".toList "abc".toList
      "v1".toList (by decide) (by decide) (by decide) (by decide) (by decide)
      (by decide) (by decide)⟩

/-- C7: for every input containing both a `/versions/<V1>` path suffix
and a `versionId=<V2>` query parameter, `parse` succeeds and yields
version `V2` — the reserved `versionId` query key overrides the
path-derived version. -/
theorem C7_versionId_query_overrides_path :
    ∀ idp v1 v2 qs : List Char, '?' ∉ idp → '/' ∉ idp → '?' ∉ v1 → '/' ∉ v1 →
      alistGet "versionId".toList (parse_query_string qs) = some v2 →
      ∃ r, parse (didCheqdMarker ++
          (idp ++ ('/' :: ("versions/".toList ++ (v1 ++ ('?' :: qs)))))) = .ok r ∧
        r.version = some v2 := by
  intro idp v1 v2 qs h1 h2 h3 h4 hv
  have h3' : '?' ∉ "versions/".toList ++ v1 := by simp [List.mem_append, h3]
  have hshape : didCheqdMarker ++
      (idp ++ ('/' :: ("versions/".toList ++ (v1 ++ ('?' :: qs))))) =
      didCheqdMarker ++
      (idp ++ ('/' :: (("versions/".toList ++ v1) ++ ('?' :: qs)))) := by simp
  rw [hshape, parse_decomp_path_query _ _ _ h1 h2 h3']
  simp only [parseComponents]
  rw [pathParts_versions v1 h4]
  simp +decide
  rw [show (['v', 'e', 'r', 's', 'i', 'o', 'n', 'I', 'd'] : List Char) =
    "versionId".toList from by decide, hv]

/-- Witness for C7: a concrete input with both a `/versions/v1` suffix
and a `versionId=v2` query parameter resolves to version `v2`. -/
theorem C7_versionId_query_overrides_path_witness :
    ∃ r, parse (didCheqdMarker ++
        ("abc".toList ++
          ('/' :: ("versions/".toList ++ ("v1".toList ++ ('?' :: "versionId=v2".toList)))))) =
      .ok r ∧ r.version = some "v2".toList :=
  C7_versionId_query_overrides_path "abc".toList "v1".toList "v2".toList
    "versionId=v2".toList (by decide) (by decide) (by decide) (by decide)
    (by decide)

/-- C8: for every input with a `/resources/<R>` path suffix, `parse`
yields a query mapping containing `resourceId == R` — the mapping is
created when no query string was present — and yields `version = none`
when no version source is present. -/
theorem C8_resources_path_injects_resourceId :
    (∀ idp r0 : List Char, '?' ∉ idp → '/' ∉ idp → '?' ∉ r0 → '/' ∉ r0 →
      (parse (didCheqdMarker ++ (idp ++ ('/' :: ("resources/".toList ++ r0))))).map
          (fun r => (r.query, r.version)) =
        .ok (some [("resourceId".toList, r0)], none)) ∧
    (∀ idp r0 qs : List Char, '?' ∉ idp → '/' ∉ idp → '?' ∉ r0 → '/' ∉ r0 →
      alistGet "versionId".toList
          (alistInsert "resourceId".toList r0 (parse_query_string qs)) = none →
      ∃ r, parse (didCheqdMarker ++
          (idp ++ ('/' :: ("resources/".toList ++ (r0 ++ ('?' :: qs)))))) = .ok r ∧
        r.query = some (alistInsert "resourceId".toList r0 (parse_query_string qs)) ∧
        alistGet "resourceId".toList
          (alistInsert "resourceId".toList r0 (parse_query_string qs)) = some r0 ∧
        r.version = none) := by
  constructor
  · intro idp r0 h1 h2 h3 h4
    have h3' : '?' ∉ "resources/".toList ++ r0 := by simp [List.mem_append, h3]
    rw [parse_decomp_path _ _ h1 h2 h3']
    simp only [parseComponents]
    rw [pathParts_resources r0 h4]
    simp +decide [alistInsert, alistGet, Except.map]
  · intro idp r0 qs h1 h2 h3 h4 hv
    have h3' : '?' ∉ "resources/".toList ++ r0 := by simp [List.mem_append, h3]
    have hshape : didCheqdMarker ++
        (idp ++ ('/' :: ("resources/".toList ++ (r0 ++ ('?' :: qs))))) =
        didCheqdMarker ++
        (idp ++ ('/' :: (("resources/".toList ++ r0) ++ ('?' :: qs)))) := by simp
    rw [hshape, parse_decomp_path_query _ _ _ h1 h2 h3']
    simp only [parseComponents]
    rw [pathParts_resources r0 h4]
    refine ⟨_, rfl, rfl, alistGet_insert_self _ _ _, ?_⟩
    simp only [hv]

/-- Witness for C8: a concrete `/resources/r1` input with and without a
query string, through the C8 theorem. -/
theorem C8_resources_path_injects_resourceId_witness :
    (parse (didCheqdMarker ++
        ("abc".toList ++ ('/' :: ("resources/".toList ++ "r1".toList))))).map
        (fun r => (r.query, r.version)) =
      .ok (some [("resourceId".toList, "r1".toList)], none) ∧
    (∃ r, parse (didCheqdMarker ++
        ("abc".toList ++
          ('/' :: ("resources/".toList ++ ("r1".toList ++ ('?' :: "a=b".toList)))))) =
        .ok r ∧
      r.query = some (alistInsert "resourceId".toList "r1".toList
        (parse_query_string "a=b".toList)) ∧
      alistGet "resourceId".toList
        (alistInsert "resourceId".toList "r1".toList
          (parse_query_string "a=b".toList)) = some "r1".toList ∧
      r.version = none) :=
  ⟨C8_resources_path_injects_resourceId.1 "abc".toList "r1".toList
      (by decide) (by decide) (by decide) (by decide),
    C8_resources_path_injects_resourceId.2 "abc".toList "r1".toList "a=b".toList
      (by decide) (by decide) (by decide) (by decide) (by decide)⟩

/-- C2 counterexample: both path-failure cases produce the *same* error
kind, `InvalidDidUrl` — the source has no distinct
`UnsupportedPathSegment` / `MalformedPath` kinds (they differ only in
message) — and a two-segment suffix with an *empty* second segment is
accepted rather than rejected, against the claim's "non-empty" clause. -/
theorem C2_path_error_kinds_counterexample :
    parse "did:cheqd:mainnet:abc/invalid/r1".toList =
      .error (.InvalidDidUrl
        "unsupported path segment; only `resources` and `versions` are accepted".toList) ∧
    parse "did:cheqd:mainnet:abc/a/b/c".toList =
      .error (.InvalidDidUrl
        "unsupported path format; expected /resources/<id> or /versions/<id>".toList) ∧
    (DidCheqdError.InvalidDidUrl
        "unsupported path segment; only `resources` and `versions` are accepted".toList).kind =
      (DidCheqdError.InvalidDidUrl
        "unsupported path format; expected /resources/<id> or /versions/<id>".toList).kind ∧
    parse "did:cheqd:mainnet:abc/resources/".toList =
      .ok { did := "did:cheqd:mainnet:abc".toList, nspace := "mainnet".toList,
            id := "abc".toList, query := some [("resourceId".toList, [])],
            version := none } := by
  refine ⟨by decide, by decide, rfl, by decide⟩

/-- C2 (amended): for every input with a path suffix, `parse` fails with
the single error kind `InvalidDidUrl`, carrying the message
"unsupported path segment; only `resources` and `versions` are
accepted" when the suffix splits into exactly two `/`-separated
segments whose first is neither `resources` nor `versions`, and the
message "unsupported path format; expected /resources/<id> or
/versions/<id>" when the suffix (after stripping leading slashes) does
not split into exactly two segments; segments may be empty. -/
theorem C2_path_errors_invalid_did_url :
    (∀ idp p' : List Char, '?' ∉ idp → '/' ∉ idp → '?' ∉ p' →
      (splitChar '/' (p'.dropWhile (fun c => c = '/'))).length ≠ 2 →
      parse (didCheqdMarker ++ (idp ++ ('/' :: p'))) =
        .error (.InvalidDidUrl
          "unsupported path format; expected /resources/<id> or /versions/<id>".toList)) ∧
    (∀ idp p' k v : List Char, '?' ∉ idp → '/' ∉ idp → '?' ∉ p' →
      splitChar '/' (p'.dropWhile (fun c => c = '/')) = [k, v] →
      k ≠ "resources".toList → k ≠ "versions".toList →
      parse (didCheqdMarker ++ (idp ++ ('/' :: p'))) =
        .error (.InvalidDidUrl
          "unsupported path segment; only `resources` and `versions` are accepted".toList)) := by
  constructor
  · intro idp p' hq hs h3 hlen
    rw [parse_decomp_path _ _ hq hs h3]
    simp only [parseComponents]
    rw [show ('/' :: p').dropWhile (fun c => c = '/') =
      p'.dropWhile (fun c => c = '/') from by simp [List.dropWhile_cons]]
    rcases hsp : splitChar '/' (p'.dropWhile (fun c => c = '/')) with
        _ | ⟨a, _ | ⟨b, _ | ⟨c, t⟩⟩⟩
    · rfl
    · rfl
    · rw [hsp] at hlen
      simp at hlen
    · rfl
  · intro idp p' k v hq hs h3 hsp hk1 hk2
    rw [parse_decomp_path _ _ hq hs h3]
    simp only [parseComponents]
    rw [show ('/' :: p').dropWhile (fun c => c = '/') =
      p'.dropWhile (fun c => c = '/') from by simp [List.dropWhile_cons]]
    rw [hsp]
    simp only [hk1, hk2]
    simp

/-- Witness for the amended C2: a three-segment suffix and an
`/invalid/r1` suffix, through the amended theorem. -/
theorem C2_path_errors_invalid_did_url_witness :
    parse (didCheqdMarker ++ ("abc".toList ++ ('/' :: "a/b/c".toList))) =
      .error (.InvalidDidUrl
        "unsupported path format; expected /resources/<id> or /versions/<id>".toList) ∧
    parse (didCheqdMarker ++ ("abc".toList ++ ('/' :: "invalid/r1".toList))) =
      .error (.InvalidDidUrl
        "unsupported path segment; only `resources` and `versions` are accepted".toList) :=
  ⟨C2_path_errors_invalid_did_url.1 "abc".toList "a/b/c".toList
      (by decide) (by decide) (by decide) (by decide),
    C2_path_errors_invalid_did_url.2 "abc".toList "invalid/r1".toList
      "invalid".toList "r1".toList (by decide) (by decide) (by decide)
      (by decide) (by decide) (by decide)⟩

theorem find_go_eq_find? (e : Int) :
    ∀ l : List CheqdResourceMetadata,
      find_resource_just_before_time.go e l =
        l.find? (fun r =>
          match r.created with
          | some c => decide ((c.normalized).seconds < e)
          | none => false) := by
  intro l
  induction l with
  | nil => rfl
  | cons r rest ih =>
    rw [find_resource_just_before_time.go, List.find?_cons]
    cases hc : r.created with
    | none => simpa [hc] using ih
    | some c =>
      by_cases hlt : (c.normalized).seconds < e
      · simp [hc, hlt]
      · simpa [hc, hlt] using ih

theorem find_eq_find? (l : List CheqdResourceMetadata) (t : UtcDateTime) :
    find_resource_just_before_time l t =
      l.find? (fun r =>
        match r.created with
        | some c => decide ((c.normalized).seconds < t.timestamp)
        | none => false) :=
  find_go_eq_find? t.timestamp l

/-- C10: the version-selection scan never selects an entry whose
`created` timestamp is absent — such entries are skipped — so a
successful name/type/time selection always returns an entry with a
present creation timestamp. -/
theorem C10_scan_skips_absent_created :
    (∀ (l : List CheqdResourceMetadata) (t : UtcDateTime)
        (r : CheqdResourceMetadata),
      find_resource_just_before_time l t = some r → ∃ c, r.created = some c) ∧
    (∀ (rs : List CheqdResourceMetadata) (name rtyp : List Char)
        (t : UtcDateTime) (r : CheqdResourceMetadata),
      resolve_resource_selection rs name rtyp t = some r →
        ∃ c, r.created = some c) := by
  have main : ∀ (l : List CheqdResourceMetadata) (t : UtcDateTime)
      (r : CheqdResourceMetadata),
      find_resource_just_before_time l t = some r → ∃ c, r.created = some c := by
    intro l t r h
    rw [find_eq_find?] at h
    have := List.find?_some h
    cases hc : r.created with
    | none => rw [hc] at this; simp at this
    | some c => exact ⟨c, rfl⟩
  exact ⟨main, fun rs name rtyp t r h => main _ t r h⟩

/-- Witness for C10: a one-entry list whose entry was created at second
5 and an as-of instant at second 10; the scan selects it and its
creation timestamp is present. -/
theorem C10_scan_skips_absent_created_witness :
    ∃ c, (CheqdResourceMetadata.created
      { id := "r1".toList, name := "n".toList, resource_type := "t".toList,
        media_type := [], created := some ⟨5, 0⟩ }) = some c :=
  C10_scan_skips_absent_created.1
    [{ id := "r1".toList, name := "n".toList, resource_type := "t".toList,
       media_type := [], created := some ⟨5, 0⟩ }]
    ⟨10, 0⟩ _ (by decide)

theorem desc_le_iff (x y : CheqdResourceMetadata) :
    (desc_chronological_sort_resources x y ≠ Ordering.gt) ↔
      ((createdKey y).1 < (createdKey x).1 ∨
        ((createdKey y).1 = (createdKey x).1 ∧
          (createdKey y).2 ≤ (createdKey x).2)) := by
  unfold desc_chronological_sort_resources intCmp
  split_ifs with h1 h2 h3 h4 <;> simp_all <;> omega

/-- C3: the name/type/time lookup first filters the fetched metadata to
exactly the entries whose name and type equal the requested ones, then
sorts the filtered set by creation timestamp descending, ordering
equal-second entries by sub-second (nanosecond) precision, also
descending (absent timestamps sort as epoch zero). -/
theorem C3_filter_then_sort_desc :
    ∀ (rs : List CheqdResourceMetadata) (name rtyp : List Char),
      (∀ r, r ∈ filter_resources_by_name_and_type rs name rtyp ↔
        (r ∈ rs ∧ r.name = name ∧ r.resource_type = rtyp)) ∧
      (sort_by_desc_chronological
          (filter_resources_by_name_and_type rs name rtyp)).Perm
        (filter_resources_by_name_and_type rs name rtyp) ∧
      (sort_by_desc_chronological
          (filter_resources_by_name_and_type rs name rtyp)).Pairwise
        (fun x y => (createdKey y).1 < (createdKey x).1 ∨
          ((createdKey y).1 = (createdKey x).1 ∧
            (createdKey y).2 ≤ (createdKey x).2)) := by
  intro rs name rtyp
  refine ⟨?_, List.perm_insertionSort descLe _, ?_⟩
  · intro r
    simp [filter_resources_by_name_and_type, List.mem_filter]
  · haveI : IsTotal CheqdResourceMetadata descLe :=
      ⟨fun a b => by
        unfold descLe
        rw [desc_le_iff, desc_le_iff]
        omega⟩
    haveI : IsTrans CheqdResourceMetadata descLe :=
      ⟨fun a b c hab hbc => by
        unfold descLe at hab hbc ⊢
        rw [desc_le_iff] at hab hbc ⊢
        omega⟩
    have hs := List.sorted_insertionSort descLe
      (filter_resources_by_name_and_type rs name rtyp)
    exact hs.imp (fun h => (desc_le_iff _ _).mp h)

/-- C1 counterexample: an entry created at 10.5 s is strictly earlier
than the as-of instant 10.7 s, so the claim as stated selects it; the
code's scan compares whole-second epochs only (10 < 10 fails), skips
it, and returns no entry — the full selection pipeline misses too. -/
theorem C1_strictly_before_counterexample :
    specFirstStrictlyBefore
        [{ id := "r1".toList, name := "n".toList, resource_type := "t".toList,
           media_type := [], created := some ⟨10, 500000000⟩ }]
        ⟨10, 700000000⟩ =
      some { id := "r1".toList, name := "n".toList, resource_type := "t".toList,
             media_type := [], created := some ⟨10, 500000000⟩ } ∧
    find_resource_just_before_time
        [{ id := "r1".toList, name := "n".toList, resource_type := "t".toList,
           media_type := [], created := some ⟨10, 500000000⟩ }]
        ⟨10, 700000000⟩ = none ∧
    resolve_resource_selection
        [{ id := "r1".toList, name := "n".toList, resource_type := "t".toList,
           media_type := [], created := some ⟨10, 500000000⟩ }]
        "n".toList "t".toList ⟨10, 700000000⟩ = none := by
  exact ⟨by decide, by decide, by decide⟩

/-- C1 (amended): the version-selection scan returns the first entry in
list order that has a present `created` field and whose whole-second
epoch is strictly less than the as-of time's whole-second epoch;
sub-second parts are ignored by the scan, so an entry created at the
boundary instant (or later within the boundary's whole second) is
excluded.  In particular, for entries created at seconds 20, 15, 10, 5
with the same name and type, as-of 14 selects the entry created at 10,
as-of 4 fails with `ResourceNotFound`, and as-of 20 selects the entry
created at 15. -/
theorem C1_scan_first_strictly_before_by_seconds :
    (∀ (l : List CheqdResourceMetadata) (t : UtcDateTime),
      find_resource_just_before_time l t =
        l.find? (fun r =>
          match r.created with
          | some c => decide ((c.normalized).seconds < t.timestamp)
          | none => false)) ∧
    resolve_resource_by_name_type_and_time
        [{ id := "a".toList, name := "n".toList, resource_type := "t".toList,
           media_type := [], created := some ⟨20, 0⟩ },
         { id := "b".toList, name := "n".toList, resource_type := "t".toList,
           media_type := [], created := some ⟨15, 0⟩ },
         { id := "c".toList, name := "n".toList, resource_type := "t".toList,
           media_type := [], created := some ⟨10, 0⟩ },
         { id := "d".toList, name := "n".toList, resource_type := "t".toList,
           media_type := [], created := some ⟨5, 0⟩ }]
        "c1".toList "n".toList "t".toList ⟨14, 0⟩ "net".toList
        (fun _ => "T14".toList) =
      .ok { id := "c".toList, name := "n".toList, resource_type := "t".toList,
            media_type := [], created := some ⟨10, 0⟩ } ∧
    resolve_resource_by_name_type_and_time
        [{ id := "a".toList, name := "n".toList, resource_type := "t".toList,
           media_type := [], created := some ⟨20, 0⟩ },
         { id := "b".toList, name := "n".toList, resource_type := "t".toList,
           media_type := [], created := some ⟨15, 0⟩ },
         { id := "c".toList, name := "n".toList, resource_type := "t".toList,
           media_type := [], created := some ⟨10, 0⟩ },
         { id := "d".toList, name := "n".toList, resource_type := "t".toList,
           media_type := [], created := some ⟨5, 0⟩ }]
        "c1".toList "n".toList "t".toList ⟨4, 0⟩ "net".toList
        (fun _ => "T4".toList) =
      .error (.ResourceNotFound
        ("network: net, collection: c1, name: n, type: t, time: T4".toList)) ∧
    resolve_resource_by_name_type_and_time
        [{ id := "a".toList, name := "n".toList, resource_type := "t".toList,
           media_type := [], created := some ⟨20, 0⟩ },
         { id := "b".toList, name := "n".toList, resource_type := "t".toList,
           media_type := [], created := some ⟨15, 0⟩ },
         { id := "c".toList, name := "n".toList, resource_type := "t".toList,
           media_type := [], created := some ⟨10, 0⟩ },
         { id := "d".toList, name := "n".toList, resource_type := "t".toList,
           media_type := [], created := some ⟨5, 0⟩ }]
        "c1".toList "n".toList "t".toList ⟨20, 0⟩ "net".toList
        (fun _ => "T20".toList) =
      .ok { id := "b".toList, name := "n".toList, resource_type := "t".toList,
            media_type := [], created := some ⟨15, 0⟩ } := by
  exact ⟨find_eq_find?, by decide, by decide, by decide⟩

/-- C4 counterexample: a query carrying `resourceId` together with an
unparsable `resourceVersionTime` satisfies the claim's failure
condition (the `resourceVersionTime` key is present but does not
parse), yet resolution succeeds with an exact-id lookup — `resourceId`
is checked first and the timestamp is never parsed. -/
theorem C4_invalid_did_url_counterexample :
    alistGet "resourceVersionTime".toList
        [("resourceId".toList, "r".toList),
         ("resourceVersionTime".toList, "junk".toList)] = some "junk".toList ∧
    ((fun _ : List Char =>
        (.error "bad".toList : Except (List Char) UtcDateTime))
      "junk".toList) = .error "bad".toList ∧
    query_resource_by_str_selector "u".toList
        { did := "did:cheqd:mainnet:abc".toList, nspace := "mainnet".toList,
          id := "abc".toList,
          query := some [("resourceId".toList, "r".toList),
            ("resourceVersionTime".toList, "junk".toList)], version := none }
        (fun _ => .error "bad".toList) ⟨0, 0⟩ = .ok (.byId "r".toList) := by
  exact ⟨by decide, rfl, by decide⟩

/-- C4 (amended): the selector-decoding phase of resource resolution
fails with error kind `InvalidDidUrl` exactly when the parsed query
contains neither a `resourceId` key nor both `resourceName` and
`resourceType` keys, or lacks `resourceId`, has both name and type,
and has a `resourceVersionTime` value that does not parse as a
timestamp (a present `resourceId` always wins and suppresses timestamp
parsing); when `resourceVersionTime` is absent — name and type present,
no `resourceId` — the as-of time defaults to the current time. -/
theorem C4_invalid_did_url_characterization :
    (∀ (q : Option QMap) (pt : List Char → Except (List Char) UtcDateTime)
        (now : UtcDateTime) (url d ns i : List Char) (ver : Option (List Char)),
      (∃ m, query_resource_by_str_selector url ⟨d, ns, i, q, ver⟩ pt now =
          .error (.InvalidDidUrl m)) ↔
        ((match q with
          | none => True
          | some qm =>
            alistGet "resourceId".toList qm = none ∧
              (alistGet "resourceName".toList qm = none ∨
                alistGet "resourceType".toList qm = none)) ∨
          (∃ qm nm ty v e, q = some qm ∧
            alistGet "resourceId".toList qm = none ∧
            alistGet "resourceName".toList qm = some nm ∧
            alistGet "resourceType".toList qm = some ty ∧
            alistGet "resourceVersionTime".toList qm = some v ∧
            pt v = .error e))) ∧
    (∀ (qm : QMap) (pt : List Char → Except (List Char) UtcDateTime)
        (now : UtcDateTime) (url d ns i : List Char) (ver : Option (List Char))
        (nm ty : List Char),
      alistGet "resourceId".toList qm = none →
      alistGet "resourceName".toList qm = some nm →
      alistGet "resourceType".toList qm = some ty →
      alistGet "resourceVersionTime".toList qm = none →
      query_resource_by_str_selector url ⟨d, ns, i, some qm, ver⟩ pt now =
        .ok (.byNameTypeTime nm ty now)) := by
  constructor
  · intro q pt now url d ns i ver
    cases q with
    | none =>
      simp only [query_resource_by_str_selector]
      simp
    | some qm =>
      cases h1 : alistGet "resourceId".toList qm with
      | some rid =>
        simp only [query_resource_by_str_selector, h1]
        simp_all
      | none =>
        cases h2 : alistGet "resourceName".toList qm with
        | none =>
          simp only [query_resource_by_str_selector, h1, h2]
          simp_all
        | some nm =>
          cases h3 : alistGet "resourceType".toList qm with
          | none =>
            simp only [query_resource_by_str_selector, h1, h2, h3]
            simp_all
          | some ty =>
            cases h4 : alistGet "resourceVersionTime".toList qm with
            | none =>
              simp only [query_resource_by_str_selector, h1, h2, h3, h4]
              simp_all
            | some v =>
              cases h5 : pt v with
              | error e =>
                simp only [query_resource_by_str_selector, h1, h2, h3, h4, h5]
                simp_all
              | ok t =>
                simp only [query_resource_by_str_selector, h1, h2, h3, h4, h5]
                simp_all
  · intro qm pt now url d ns i ver nm ty h1 h2 h3 h4
    simp only [query_resource_by_str_selector, h1, h2, h3, h4]

/-- Witness for the amended C4: a name+type query with no
`resourceVersionTime` decodes to a name/type/time lookup at the current
time. -/
theorem C4_invalid_did_url_characterization_witness :
    query_resource_by_str_selector "u".toList
      { did := [], nspace := [], id := [],
        query := some [("resourceName".toList, "n".toList),
          ("resourceType".toList, "t".toList)], version := none }
      (fun _ => .error "bad".toList) ⟨7, 0⟩ =
      .ok (.byNameTypeTime "n".toList "t".toList ⟨7, 0⟩) :=
  C4_invalid_did_url_characterization.2
    [("resourceName".toList, "n".toList), ("resourceType".toList, "t".toList)]
    (fun _ => .error "bad".toList) ⟨7, 0⟩ "u".toList [] [] [] none
    "n".toList "t".toList (by decide) (by decide) (by decide) (by decide)

theorem alistGet_eq_none_of_not_key {β : Type} {k : List Char} :
    ∀ {m : List (List Char × β)}, (∀ p ∈ m, p.1 ≠ k) → alistGet k m = none := by
  intro m
  induction m with
  | nil => intro _; rfl
  | cons p t ih =>
    intro h
    simp only [alistGet]
    rw [if_neg (h p (List.mem_cons_self _ _))]
    exact ih (fun q hq => h q (List.mem_cons_of_mem _ hq))

/-- C5: when the requested namespace has no entry in the configured
network list, `client_for_network` fails with `NetworkNotSupported`,
attempts no endpoint construction and no connection (the action trace
is empty: the configuration lookup precedes both), and leaves the cache
unchanged.  The cache-invariant hypothesis — every cached key is a
configured namespace — holds at construction (empty cache) and is
preserved by every call, so the cache lookup cannot mask the miss. -/
theorem C5_network_not_supported_no_connection :
    ∀ (Chan : Type) (resolver : DidCheqdResolver Chan)
      (endpointOk tlsOk : List Char → Bool)
      (connectChan : List Char → Except Unit Chan) (network : List Char),
      (∀ p ∈ resolver.network_clients, ∃ n ∈ resolver.networks, n.nspace = p.1) →
      (∀ n ∈ resolver.networks, n.nspace ≠ network) →
      client_for_network resolver endpointOk tlsOk connectChan network =
        (resolver.network_clients, .error (.NetworkNotSupported network), []) := by
  intro Chan resolver eOk tOk cc network hinv habs
  have hget : alistGet network resolver.network_clients = none := by
    apply alistGet_eq_none_of_not_key
    intro p hp hk
    obtain ⟨n, hn, hns⟩ := hinv p hp
    exact habs n hn (hns.trans hk)
  have hfind : resolver.networks.find?
      (fun n => decide (n.nspace = network)) = none := by
    rw [List.find?_eq_none]
    intro n hn
    simp [habs n hn]
  simp only [client_for_network, hget, hfind]

/-- Witness for C5: the default two-network configuration with an empty
cache and an unconfigured namespace `devnet`. -/
theorem C5_network_not_supported_no_connection_witness :
    client_for_network
        (DidCheqdResolver.new Nat DidCheqdResolverConfiguration.default)
        (fun _ => true) (fun _ => true) (fun _ => .ok 0) "devnet".toList =
      ((DidCheqdResolver.new Nat
          DidCheqdResolverConfiguration.default).network_clients,
        .error (.NetworkNotSupported "devnet".toList), []) :=
  C5_network_not_supported_no_connection Nat _ _ _ _ "devnet".toList
    (by intro p hp; simp [DidCheqdResolver.new] at hp) (by decide)

/-- C6: the connection cache maps namespace to client handle; it is
empty at engine construction; a cache hit returns the cached handle,
leaves the cache unchanged and attempts no endpoint construction or
connection; a cache miss for a configured namespace with a successful
connection inserts the new client under that namespace (lazy creation
on first use), after which a lookup finds it; and no call ever removes
an existing entry. -/
theorem C6_connection_cache_lifecycle :
    (∀ (Chan : Type) (cfg : DidCheqdResolverConfiguration),
      (DidCheqdResolver.new Chan cfg).network_clients = []) ∧
    (∀ (Chan : Type) (resolver : DidCheqdResolver Chan)
        (eOk tOk : List Char → Bool) (cc : List Char → Except Unit Chan)
        (network : List Char) (client : CheqdGrpcClient Chan),
      alistGet network resolver.network_clients = some client →
      client_for_network resolver eOk tOk cc network =
        (resolver.network_clients, .ok client, [])) ∧
    (∀ (Chan : Type) (resolver : DidCheqdResolver Chan)
        (eOk tOk : List Char → Bool) (cc : List Char → Except Unit Chan)
        (network : List Char) (ncfg : NetworkConfiguration) (ch : Chan),
      alistGet network resolver.network_clients = none →
      resolver.networks.find? (fun n => decide (n.nspace = network)) = some ncfg →
      eOk ncfg.grpc_url = true →
      tOk ncfg.grpc_url = true →
      cc ncfg.grpc_url = .ok ch →
      client_for_network resolver eOk tOk cc network =
        (alistInsert network ⟨ch, ch⟩ resolver.network_clients, .ok ⟨ch, ch⟩,
          [.endpointNew ncfg.grpc_url, .connect ncfg.grpc_url]) ∧
      alistGet network (alistInsert network (⟨ch, ch⟩ : CheqdGrpcClient Chan)
        resolver.network_clients) = some ⟨ch, ch⟩) ∧
    (∀ (Chan : Type) (resolver : DidCheqdResolver Chan)
        (eOk tOk : List Char → Bool) (cc : List Char → Except Unit Chan)
        (network k : List Char) (c : CheqdGrpcClient Chan),
      alistGet k resolver.network_clients = some c →
      alistGet k (client_for_network resolver eOk tOk cc network).1 = some c) := by
  refine ⟨fun Chan cfg => rfl, ?_, ?_, ?_⟩
  · intro Chan resolver eOk tOk cc network client h
    simp only [client_for_network, h]
  · intro Chan resolver eOk tOk cc network ncfg ch h1 h2 h3 h4 h5
    refine ⟨?_, alistGet_insert_self _ _ _⟩
    simp only [client_for_network, h1, h2, h3, h4, h5, if_true]
  · intro Chan resolver eOk tOk cc network k c hk
    cases hget : alistGet network resolver.network_clients with
    | some cl => simpa [client_for_network, hget] using hk
    | none =>
      cases hfind : resolver.networks.find?
          (fun n => decide (n.nspace = network)) with
      | none => simpa [client_for_network, hget, hfind] using hk
      | some ncfg =>
        by_cases he : eOk ncfg.grpc_url
        · by_cases ht : tOk ncfg.grpc_url
          · cases hcc : cc ncfg.grpc_url with
            | ok ch =>
              have hne : network ≠ k := by
                intro hh
                rw [hh, hk] at hget
                cases hget
              simp [client_for_network, hget, hfind, he, ht, hcc,
                alistGet_insert_ne _ hne, hk]
            | error e =>
              simpa [client_for_network, hget, hfind, he, ht, hcc] using hk
          · simpa [client_for_network, hget, hfind, he, ht] using hk
        · simpa [client_for_network, hget, hfind, he] using hk

/-- Witness for C6: a hit on a one-entry cache, a miss on the empty
default-configuration cache that connects and caches `mainnet`, and
preservation of an existing entry across an unrelated call. -/
theorem C6_connection_cache_lifecycle_witness :
    (DidCheqdResolver.new Nat DidCheqdResolverConfiguration.default).network_clients
        = [] ∧
    client_for_network
        (⟨[NetworkConfiguration.mainnet], [("mainnet".toList, ⟨7, 7⟩)]⟩ :
          DidCheqdResolver Nat)
        (fun _ => true) (fun _ => true) (fun _ => .ok 7) "mainnet".toList =
      ([("mainnet".toList, ⟨7, 7⟩)], .ok ⟨7, 7⟩, []) ∧
    client_for_network
        (DidCheqdResolver.new Nat DidCheqdResolverConfiguration.default)
        (fun _ => true) (fun _ => true) (fun _ => .ok 7) "mainnet".toList =
      ([("mainnet".toList, ⟨7, 7⟩)], .ok ⟨7, 7⟩,
        [.endpointNew MAINNET_DEFAULT_GRPC, .connect MAINNET_DEFAULT_GRPC]) ∧
    alistGet "mainnet".toList
        (client_for_network
          (⟨[NetworkConfiguration.testnet], [("mainnet".toList, ⟨7, 7⟩)]⟩ :
            DidCheqdResolver Nat)
          (fun _ => true) (fun _ => true) (fun _ => .ok 9) "testnet".toList).1 =
      some ⟨7, 7⟩ := by
  refine ⟨C6_connection_cache_lifecycle.1 Nat _, ?_, ?_, ?_⟩
  · exact C6_connection_cache_lifecycle.2.1 Nat _ _ _ _ _ _ (by decide)
  · have h := C6_connection_cache_lifecycle.2.2.1 Nat
      (DidCheqdResolver.new Nat DidCheqdResolverConfiguration.default)
      (fun _ => true) (fun _ => true) (fun _ => .ok 7) "mainnet".toList
      NetworkConfiguration.mainnet 7 (by decide) (by decide) rfl rfl rfl
    exact h.1.trans (by decide)
  · exact C6_connection_cache_lifecycle.2.2.2 Nat _ _ _ _ _ _ _ (by decide)
